import Mathlib

/-!
Verification of the ChatApp RAG backend (src/backend/app.py, src/backend/ingest.py,
src/backend/rag_pipeline.py).

Strings are modelled as `List Char`.  Python's `str.strip`, `os.path.basename`,
`str.lower().endswith(".pdf")` and `"sep".join` are embedded directly.  The text
splitter used by `ingest_docs` (`RecursiveCharacterTextSplitter(chunk_size=900,
chunk_overlap=150, separators=["\n\n", "\n", ".", " ", ""])`, an external library
the repository configures but does not implement) is embedded following its
documented recursive split-and-merge algorithm with its defaults
(`keep_separator=True`, `length_function=len`, whitespace-stripped joins).
External collaborators that live outside this repository (the Chroma vector
store, the embedding model, the Groq client) are modelled from the spec's
capability contracts; the retriever handle is kept opaque (an arbitrary function)
wherever a claim does not depend on its internals.
-/

abbrev Str := List Char

/-- Python whitespace, as recognised by `str.strip()` (ASCII part). -/
def pySpace (c : Char) : Bool :=
  c = ' ' || c = '\t' || c = '\n' || c = '\r' || c = '\x0b' || c = '\x0c'

/-- Python `s.strip()`: drop leading and trailing whitespace. -/
def pyStrip (s : Str) : Str :=
  ((s.dropWhile pySpace).reverse.dropWhile pySpace).reverse

/-- POSIX `os.path.basename`: the part of the path after the last slash. -/
def basename (p : Str) : Str :=
  (p.reverse.takeWhile (fun c => c ≠ '/')).reverse

/-- Python `sep.join(docs)`. -/
def joinSep (sep : Str) : List Str → Str
  | [] => []
  | [d] => d
  | d :: e :: rest => d ++ sep ++ joinSep sep (e :: rest)

/-- Total length of a list of strings. -/
def sumLens (l : List Str) : Nat := (l.map List.length).sum

/-- Does `pat` occur as a prefix of `s`? -/
def startsWithSeq : Str → Str → Bool
  | [], _ => true
  | _ :: _, [] => false
  | a :: as, b :: bs => a = b && startsWithSeq as bs

/-- Does `pat` occur anywhere in `s` (Python `re.search` on the escaped literal)? -/
def occursIn (pat : Str) : Str → Bool
  | [] => startsWithSeq pat []
  | c :: rest => startsWithSeq pat (c :: rest) || occursIn pat rest

/-- Split `text` at each leftmost, non-overlapping occurrence of the literal
separator `sep` (Python `re.split` on the escaped literal).  `fuel` is an upper
bound on the number of scanning steps; `fuel = text.length` always suffices
because every step consumes at least one character. -/
def splitOnAux (sep : Str) : Nat → Str → Str → List Str
  | _, [], acc => [acc.reverse]
  | 0, text, acc => [acc.reverse ++ text]
  | fuel + 1, c :: rest, acc =>
    if startsWithSeq sep (c :: rest) then
      acc.reverse :: splitOnAux sep fuel (List.drop sep.length (c :: rest)) []
    else
      splitOnAux sep fuel rest (c :: acc)

def splitOnSeq (sep text : Str) : List Str :=
  if sep = [] then [text] else splitOnAux sep text.length text []

/-- `_split_text_with_regex` with `keep_separator=True`: each separator
occurrence is re-attached to the piece that follows it, and empty pieces are
dropped. -/
def splitKeepSep (sep text : Str) : List Str :=
  match splitOnSeq sep text with
  | [] => []
  | p :: rest => (p :: rest.map (fun q => sep ++ q)).filter (fun s => s ≠ [])

/-- The separator-selection loop at the top of `_split_text`: the first
separator that is empty (chosen unconditionally) or occurs in the text is
selected, together with the remaining lower-priority separators. -/
def chooseSepGo : List Str → Str → Option (Str × List Str)
  | [], _ => none
  | s :: rest, text =>
    if s = [] then some ([], [])
    else if occursIn s text then some (s, rest)
    else chooseSepGo rest text

/-- Separator selection, with Python's fallback `separator = separators[-1]`,
`new_separators = []` when nothing matched. -/
def chooseSep (seps : List Str) (text : Str) : Str × List Str :=
  (chooseSepGo seps text).getD (seps.getLastD [], [])

/-- `_join_docs`: join the accumulated pieces, strip surrounding whitespace,
and drop the result when it is empty. -/
def joinDocs (sep : Str) (docs : List Str) : Option Str :=
  let text := pyStrip (joinSep sep docs)
  if text = [] then none else some text

/-- The `while` loop inside `_merge_splits` that pops pieces from the front of
the current window until the retained overlap fits.  The first component of the
running state is the window, the second Python's separately-tracked `total`. -/
def popLoop (sepLen overlap csize lenD : Nat) : List Str → Nat → List Str × Nat
  | [], total => ([], total)
  | c :: rest, total =>
    if overlap < total || (csize < total + lenD + sepLen && 0 < total) then
      popLoop sepLen overlap csize lenD rest
        (total - (c.length + if rest = [] then 0 else sepLen))
    else (c :: rest, total)

/-- State of the `_merge_splits` fold: emitted chunks, current window, running
character total of the window. -/
structure MergeSt where
  docs : List Str
  cur : List Str
  total : Nat

/-- One iteration of the `for d in splits` loop of `_merge_splits`. -/
def mergeStep (sep : Str) (overlap csize : Nat) (st : MergeSt) (d : Str) : MergeSt :=
  let lenD := d.length
  let sepLen := sep.length
  let st1 :=
    if csize < st.total + lenD + (if st.cur = [] then 0 else sepLen) then
      if st.cur = [] then st
      else
        let docs1 :=
          match joinDocs sep st.cur with
          | some doc => st.docs ++ [doc]
          | none => st.docs
        let pr := popLoop sepLen overlap csize lenD st.cur st.total
        ⟨docs1, pr.1, pr.2⟩
    else st
  ⟨st1.docs, st1.cur ++ [d], st1.total + lenD + (if st1.cur = [] then 0 else sepLen)⟩

/-- `_merge_splits`: pack the pieces into chunks of at most `csize` characters,
retaining up to `overlap` characters of trailing context between chunks. -/
def mergeSplits (sep : Str) (overlap csize : Nat) (splits : List Str) : List Str :=
  let st := splits.foldl (mergeStep sep overlap csize) ⟨[], [], 0⟩
  match joinDocs sep st.cur with
  | some doc => st.docs ++ [doc]
  | none => st.docs

/-- The `for s in splits` loop of `_split_text`: pieces shorter than `csize`
accumulate into `goods` and are merged; an oversized piece first flushes the
accumulated merge, then is either emitted raw (no separators left) or split
recursively (`recf`).  The merge separator is `""` because the splitter runs
with `keep_separator=True`. -/
def processSplitsF (overlap csize : Nat) (recf : Option (Str → List Str)) :
    List Str → List Str → List Str
  | [], goods => if goods = [] then [] else mergeSplits [] overlap csize goods
  | s :: rest, goods =>
    if s.length < csize then
      processSplitsF overlap csize recf rest (goods ++ [s])
    else
      (if goods = [] then [] else mergeSplits [] overlap csize goods)
        ++ (match recf with
            | none => [s]
            | some f => f s)
        ++ processSplitsF overlap csize recf rest []

/-- `RecursiveCharacterTextSplitter._split_text`.  `fuel` bounds the recursion
depth; any `fuel ≥ separators.length` is exact because each recursive call runs
on a strictly shorter separator list. -/
def splitTextFuel (overlap csize : Nat) : Nat → List Str → Str → List Str
  | 0, _, text => [text]
  | fuel + 1, seps, text =>
    let sn := chooseSep seps text
    let splits :=
      if sn.1 = [] then text.map (fun c => [c]) else splitKeepSep sn.1 text
    let recf : Option (Str → List Str) :=
      if sn.2 = [] then none
      else some (fun s => splitTextFuel overlap csize fuel sn.2 s)
    processSplitsF overlap csize recf splits []

/-- The chunk-size budget configured in `ingest_docs`. -/
def ragChunkSize : Nat := 900

/-- The chunk overlap configured in `ingest_docs`. -/
def ragChunkOverlap : Nat := 150

/-- The separator priority list configured in `ingest_docs`. -/
def ragSeparators : List Str :=
  [['\n', '\n'], ['\n'], ['.'], [' '], []]

/-- `splitter.split_text` for the splitter configured in `ingest_docs`. -/
def split_text (text : Str) : List Str :=
  splitTextFuel ragChunkOverlap ragChunkSize (ragSeparators.length + 1) ragSeparators text

/-- Metadata dictionary of a langchain `Document`, restricted to the keys this
backend reads: `source` (the originating file path; `none` models a dictionary
without the key, so `meta.get("source", "")` yields `""`) and `page`. -/
structure DocMeta where
  source : Option Str
  page : Option Nat
deriving DecidableEq

/-- A langchain `Document`: page content plus metadata.  `metadata = none`
models `getattr(d, "metadata", {}) or {}` receiving nothing. -/
structure Document where
  page_content : Str
  metadata : Option DocMeta
deriving DecidableEq

/-- `splitter.split_documents`: split each document's text and copy its
metadata onto every produced chunk. -/
def split_documents (docs : List Document) : List Document :=
  docs.flatMap (fun d => (split_text d.page_content).map (fun t => ⟨t, d.metadata⟩))

/-- One file of the `data/pdfs` directory together with the pages the external
`PyPDFLoader` extracts from it. -/
structure PdfFile where
  name : Str
  pages : List Document

/-- Environment of an ingestion run: the directory listing (in `os.listdir`
order) and a deterministic embedding stub mapping chunk text to a vector of the
opaque type `Vec`. -/
structure IngestEnv (Vec : Type) where
  files : List PdfFile
  embed : Str → Vec

/-- The persisted vector index: the (vector, chunk) entries of the Chroma
collection. -/
abbrev Index (Vec : Type) := List (Vec × Document)

/-- Where an ingestion run stopped. -/
inductive IngestOutcome where
  | noDocuments
  | noChunks
  | stored (chunkCount : Nat)
deriving DecidableEq

/-- Result of one `ingest_docs` run: the index afterwards, the outcome, and
whether the embedding and store steps were reached. -/
structure IngestRun (Vec : Type) where
  index : Index Vec
  outcome : IngestOutcome
  embedderLoaded : Bool
  storeCalled : Bool

/-- Python `fname.lower().endswith(".pdf")`. -/
def isPdfName (name : Str) : Bool :=
  startsWithSeq (['.', 'p', 'd', 'f'].reverse) ((name.map Char.toLower).reverse)

/-- Step 1 of `ingest_docs`: load every `.pdf` file of `data/pdfs` (non-PDF
entries skipped) and concatenate the extracted pages. -/
def loadDocuments {Vec : Type} (env : IngestEnv Vec) : List Document :=
  (env.files.filter (fun f => isPdfName f.name)).flatMap (fun f => f.pages)

/-- The (vector, chunk) set built by an ingestion run over the current source
directory. -/
def ingestEntries {Vec : Type} (env : IngestEnv Vec) : Index Vec :=
  (split_documents (loadDocuments env)).map (fun c => (env.embed c.page_content, c))

/-- `ingest_docs` from src/backend/ingest.py, run against a pre-existing index
`index`.  The two early returns leave the index untouched.  Modelled from the
spec: the store step (`Chroma.from_documents` into the persistent directory —
the external vector-store collaborator, not implemented in this repository)
follows the spec's Index `rebuild` contract, replacing the index contents with
exactly this run's (Vector, Chunk) set. -/
def ingest_docs {Vec : Type} (env : IngestEnv Vec) (index : Index Vec) : IngestRun Vec :=
  let documents := loadDocuments env
  if documents = [] then ⟨index, .noDocuments, false, false⟩
  else
    let chunks := split_documents documents
    if chunks = [] then ⟨index, .noChunks, false, false⟩
    else ⟨ingestEntries env, .stored chunks.length, true, true⟩

/-- The chunk count an ingestion run reports (`0` at both early returns). -/
def ingestChunkCount : IngestOutcome → Nat
  | .noDocuments => 0
  | .noChunks => 0
  | .stored n => n

/-- A Groq chat-completion request as `ask_question` builds it: keyword
arguments that the call site does not pass (sampling temperature, streaming)
are `none`. -/
structure LLMRequest where
  model : Str
  messages : List (Str × Str)
  temperature : Option Int
  stream : Option Bool
deriving DecidableEq

/-- The `/ask` request payload (`Question` in src/backend/app.py). -/
structure Question where
  question : Str
  sources : Option (List Str)
deriving DecidableEq

/-- What `ask_question` returns: an `HTTPException` or an answer payload with
the source-metadata list. -/
inductive AskResponse where
  | httpError (status : Nat) (detail : Str)
  | ok (answer : Str) (sources : List (Option DocMeta))
deriving DecidableEq

/-- Observable trace of one `ask_question` call: response, number of
`retriever.get_relevant_documents` calls, and every request sent to the Groq
client, in order. -/
structure AskTrace where
  response : AskResponse
  retrieverCalls : Nat
  llmRequests : List LLMRequest
deriving DecidableEq

/-- The module-level mutable handles of src/backend/app.py (`retriever`,
`groq_client`), both `None` until `startup_event` ran.  The retriever bound by
`load_retriever` and the Groq client are opaque deterministic functions. -/
structure AppState where
  retriever : Option (Str → List Document)
  groq_client : Option (LLMRequest → Str)

/-- `meta.get("source", "")` applied to `getattr(d, "metadata", {}) or {}`. -/
def metaSource : Option DocMeta → Str
  | none => []
  | some m => m.source.getD []

/-- `name = os.path.basename(src_path) if src_path else ""`. -/
def sourceName (d : Document) : Str :=
  let srcPath := metaSource d.metadata
  if srcPath = [] then [] else basename srcPath

/-- The source filter of `ask_question`: keep the chunks whose computed name is
in the allowed set. -/
def filterDocs (allowed : List Str) (docs : List Document) : List Document :=
  docs.filter (fun d => decide (sourceName d ∈ allowed))

/-- `if payload.sources:` — the filter runs only when a non-empty list of
allowed sources was provided. -/
def appliedFilter (sources : Option (List Str)) (docs : List Document) : List Document :=
  match sources with
  | none => docs
  | some srcs => if srcs = [] then docs else filterDocs srcs docs

def detailNotInitialized : Str := "Backend not initialized".data

def detailQuestionRequired : Str := "Question is required".data

def fallbackAnswer : Str :=
  "I couldn\x27t find anything in the selected PDFs for this question.".data

def groqModelName : Str := "llama-3.1-8b-instant".data

def roleSystem : Str := "system".data

def roleUser : Str := "user".data

def systemMessage : Str := "You are a precise RAG assistant.".data

def contextSeparator : Str := "\n\n---\n\n".data

def promptHeader : Str :=
  ("\n    You are a helpful assistant. Use the document context below to answer the question.\n\n    - The context may come from multiple documents.\n    - Combine information from different parts of the context when helpful.\n    - Prefer using the context when it is relevant.\n    - If the context is only partially relevant, still answer as well as you can and say when you are unsure.\n    - Only if the context is completely unrelated to the question, say: \x22I don\x27t know based on this document.\x22\n\n    Context:\n    ").data

def promptQuestion : Str := "\n\n    Question:\n    ".data

def promptFooter : Str := "\n\n    Answer in a clear paragraph:\n    ".data

/-- The f-string prompt of `ask_question`, after `.strip()`. -/
def buildPrompt (context question : Str) : Str :=
  pyStrip (promptHeader ++ context ++ promptQuestion ++ question ++ promptFooter)

/-- The single chat-completion request `ask_question` issues: fixed model, a
system message and the grounded user prompt; no temperature, no streaming. -/
def askRequest (question : Str) (docs : List Document) : LLMRequest :=
  ⟨groqModelName,
   [(roleSystem, systemMessage),
    (roleUser, buildPrompt (joinSep contextSeparator (docs.map (fun d => d.page_content))) question)],
   none, none⟩

/-- `ask_question` from src/backend/app.py (the `/ask` handler). -/
def ask_question (st : AppState) (payload : Question) : AskTrace :=
  match st.retriever, st.groq_client with
  | none, _ => ⟨.httpError 503 detailNotInitialized, 0, []⟩
  | some _, none => ⟨.httpError 503 detailNotInitialized, 0, []⟩
  | some retr, some llm =>
    let question := pyStrip payload.question
    if question = [] then ⟨.httpError 400 detailQuestionRequired, 0, []⟩
    else
      let docs := appliedFilter payload.sources (retr question)
      if docs = [] then ⟨.ok fallbackAnswer [], 1, []⟩
      else
        let req := askRequest question docs
        ⟨.ok (llm req) (docs.map (fun d => d.metadata)), 1, [req]⟩

/-- The `ChatGroq` construction in `load_rag_pipeline`
(src/backend/rag_pipeline.py): model name and sampling temperature. -/
structure ChatGroqConfig where
  model_name : Str
  temperature : Int

/-- The LLM configured by `load_rag_pipeline` — the repository's other pipeline
variant, not used by the `/ask` handler. -/
def load_rag_pipeline_llm : ChatGroqConfig :=
  ⟨"llama-3.3-70b-versatile".data, 0⟩

/-- Sample one-page PDF file, environment, and a pre-existing index used by
the concrete witnesses (`Vec` instantiated with `Unit`). -/
def samplePage : Document :=
  ⟨("hello".data), some ⟨some ("a.pdf".data), some 0⟩⟩

def sampleEnv : IngestEnv Unit :=
  ⟨[⟨("a.pdf".data), [samplePage]⟩], fun _ => ()⟩

def emptyEnv : IngestEnv Unit := ⟨[], fun _ => ()⟩

def sampleIndex : Index Unit := [((), samplePage)]

/-- A document whose metadata names its source file `nm`. -/
def mkDoc (nm content : Str) : Document := ⟨content, some ⟨some nm, some 0⟩⟩

def docA1 : Document := mkDoc ("a.pdf".data) ("one".data)

def docB2 : Document := mkDoc ("b.pdf".data) ("two".data)

def docC3 : Document := mkDoc ("c.pdf".data) ("three".data)

def docA4 : Document := mkDoc ("a.pdf".data) ("four".data)

def docB5 : Document := mkDoc ("b.pdf".data) ("five".data)

/-- A document carrying no metadata at all. -/
def docNoMeta : Document := ⟨("text".data), none⟩

/-- Deterministic retriever stubs and a deterministic LLM stub used by the
concrete witnesses and counterexamples. -/
def retrFive : Str → List Document := fun _ => [docA1, docB2, docC3, docA4, docB5]

def retrNone : Str → List Document := fun _ => []

def retrNoMeta : Str → List Document := fun _ => [docNoMeta]

def llmStub : LLMRequest → Str := fun _ => ("ans".data)

def stFull : AppState := ⟨some retrFive, some llmStub⟩

def stEmptyRetr : AppState := ⟨some retrNone, some llmStub⟩

def stNoMeta : AppState := ⟨some retrNoMeta, some llmStub⟩

def stNone : AppState := ⟨none, none⟩

def payloadHi : Question := ⟨('h' :: ['i']), none⟩

def payloadEmptyQ : Question := ⟨[], none⟩

def payloadSpaces : Question := ⟨(' ' :: ' ' :: [' ']), none⟩

def payloadFiltered : Question := ⟨('h' :: ['i']), some [("a.pdf".data)]⟩

/-- A payload whose allowed-sources list contains exactly the empty string. -/
def payloadEmptyAllowed : Question := ⟨('q' :: []), some [([] : Str)]⟩

theorem sumLens_nil : sumLens [] = 0 := rfl

theorem sumLens_cons (d : Str) (l : List Str) :
    sumLens (d :: l) = d.length + sumLens l := by
  simp [sumLens]

theorem sumLens_append (a b : List Str) :
    sumLens (a ++ b) = sumLens a + sumLens b := by
  simp [sumLens]

theorem pyStrip_length_le (s : Str) : (pyStrip s).length ≤ s.length := by
  unfold pyStrip
  rw [List.length_reverse]
  calc ((s.dropWhile pySpace).reverse.dropWhile pySpace).length
      ≤ (s.dropWhile pySpace).reverse.length :=
        (List.dropWhile_sublist _).length_le
    _ = (s.dropWhile pySpace).length := List.length_reverse _
    _ ≤ s.length := (List.dropWhile_sublist _).length_le

theorem joinSep_nil_length (docs : List Str) :
    (joinSep [] docs).length = sumLens docs := by
  induction docs with
  | nil => simp [joinSep, sumLens]
  | cons d rest ih =>
    cases rest with
    | nil => simp [joinSep, sumLens]
    | cons e rest2 =>
      simp only [joinSep, List.append_nil, List.length_append] at ih ⊢
      rw [sumLens_cons, ih]

theorem joinDocs_length {docs : List Str} {doc : Str}
    (h : joinDocs [] docs = some doc) : doc.length ≤ sumLens docs := by
  unfold joinDocs at h
  simp only [] at h
  split at h
  · exact absurd h (by simp)
  · rw [Option.some.injEq] at h
    subst h
    calc (pyStrip (joinSep [] docs)).length
        ≤ (joinSep [] docs).length := pyStrip_length_le _
      _ = sumLens docs := joinSep_nil_length _

theorem popLoop_spec (overlap csize lenD : Nat) :
    ∀ (cur : List Str) (total : Nat), total = sumLens cur →
      (popLoop 0 overlap csize lenD cur total).2 =
          sumLens (popLoop 0 overlap csize lenD cur total).1 ∧
        ((popLoop 0 overlap csize lenD cur total).2 + lenD ≤ csize ∨
          (popLoop 0 overlap csize lenD cur total).2 = 0) := by
  intro cur
  induction cur with
  | nil =>
    intro total ht
    rw [sumLens_nil] at ht
    simp [popLoop, ht, sumLens_nil]
  | cons c rest ih =>
    intro total ht
    rw [sumLens_cons] at ht
    unfold popLoop
    split
    · have hrec : total - (c.length + if rest = [] then 0 else 0) = sumLens rest := by
        have : (if rest = [] then 0 else 0) = 0 := ite_self 0
        omega
      exact ih _ hrec
    · rename_i hcond
      constructor
      · simpa [sumLens_cons] using ht
      · simp only [Bool.or_eq_true, Bool.and_eq_true, decide_eq_true_eq, not_or,
          Bool.not_eq_true] at hcond
        omega

theorem mergeStep_inv (overlap csize : Nat) (st : MergeSt) (d : Str)
    (hd : d.length < csize)
    (h1 : ∀ c ∈ st.docs, c.length ≤ csize)
    (h2 : st.total = sumLens st.cur)
    (h3 : st.total ≤ csize) :
    (∀ c ∈ (mergeStep [] overlap csize st d).docs, c.length ≤ csize) ∧
      (mergeStep [] overlap csize st d).total =
        sumLens (mergeStep [] overlap csize st d).cur ∧
      (mergeStep [] overlap csize st d).total ≤ csize := by
  unfold mergeStep
  simp only [List.length_nil, ite_self, Nat.add_zero]
  by_cases hc : csize < st.total + d.length
  · rw [if_pos hc]
    by_cases hcur : st.cur = []
    · exfalso
      rw [hcur, sumLens_nil] at h2
      omega
    · rw [if_neg hcur]
      obtain ⟨hp1, hp2⟩ := popLoop_spec overlap csize d.length st.cur st.total h2
      refine ⟨?_, ?_, ?_⟩
      · intro c hcmem
        rcases hj : joinDocs [] st.cur with _ | doc
        · rw [hj] at hcmem
          simp only [] at hcmem
          exact h1 c hcmem
        · rw [hj] at hcmem
          simp only [] at hcmem
          rcases List.mem_append.mp hcmem with hin | hdoc
          · exact h1 c hin
          · have : c = doc := by simpa using hdoc
            subst this
            calc c.length ≤ sumLens st.cur := joinDocs_length hj
              _ = st.total := h2.symm
              _ ≤ csize := h3
      · rcases hj : joinDocs [] st.cur with _ | doc <;>
          · simp only [sumLens_append, sumLens_cons, sumLens_nil]
            omega
      · rcases hj : joinDocs [] st.cur with _ | doc <;>
          · simp only []
            rcases hp2 with hle | hzero <;> omega
  · rw [if_neg hc]
    refine ⟨h1, ?_, by omega⟩
    simp only [sumLens_append, sumLens_cons, sumLens_nil]
    omega

theorem mergeFold_inv (overlap csize : Nat) :
    ∀ (splits : List Str) (st : MergeSt),
      (∀ s ∈ splits, s.length < csize) →
      (∀ c ∈ st.docs, c.length ≤ csize) →
      st.total = sumLens st.cur → st.total ≤ csize →
      (∀ c ∈ (splits.foldl (mergeStep [] overlap csize) st).docs, c.length ≤ csize) ∧
        (splits.foldl (mergeStep [] overlap csize) st).total =
          sumLens (splits.foldl (mergeStep [] overlap csize) st).cur ∧
        (splits.foldl (mergeStep [] overlap csize) st).total ≤ csize := by
  intro splits
  induction splits with
  | nil => intro st _ h1 h2 h3; exact ⟨h1, h2, h3⟩
  | cons s rest ih =>
    intro st hs h1 h2 h3
    have hstep := mergeStep_inv overlap csize st s (hs s (List.mem_cons_self s rest)) h1 h2 h3
    exact ih (mergeStep [] overlap csize st s)
      (fun x hx => hs x (List.mem_cons_of_mem s hx)) hstep.1 hstep.2.1 hstep.2.2

theorem mergeSplits_bound (overlap csize : Nat) (splits : List Str)
    (h : ∀ s ∈ splits, s.length < csize) :
    ∀ c ∈ mergeSplits [] overlap csize splits, c.length ≤ csize := by
  intro c hc
  unfold mergeSplits at hc
  simp only [] at hc
  obtain ⟨hdocs, htot, hbound⟩ :=
    mergeFold_inv overlap csize splits ⟨[], [], 0⟩ h (by simp) rfl (Nat.zero_le csize)
  rcases hj : joinDocs [] (splits.foldl (mergeStep [] overlap csize) ⟨[], [], 0⟩).cur
    with _ | doc
  · rw [hj] at hc
    simp only [] at hc
    exact hdocs c hc
  · rw [hj] at hc
    simp only [] at hc
    rcases List.mem_append.mp hc with hin | hone
    · exact hdocs c hin
    · have : c = doc := by simpa using hone
      subst this
      calc c.length ≤ sumLens (splits.foldl (mergeStep [] overlap csize) ⟨[], [], 0⟩).cur :=
            joinDocs_length hj
        _ ≤ csize := by omega

theorem chooseSepGo_spec (text : Str) :
    ∀ seps : List Str, [] ∈ seps →
      ∃ r, chooseSepGo seps text = some r ∧
        (r = ([], []) ∨ (r.1 ≠ [] ∧ [] ∈ r.2 ∧ r.2.length < seps.length)) := by
  intro seps
  induction seps with
  | nil => intro h; exact absurd h (List.not_mem_nil _)
  | cons s rest ih =>
    intro hmem
    by_cases hs : s = []
    · subst hs
      exact ⟨([], []), by simp [chooseSepGo], Or.inl rfl⟩
    · have hrest : [] ∈ rest := by
        rcases List.mem_cons.mp hmem with h | h
        · exact absurd h.symm hs
        · exact h
      by_cases ho : occursIn s text = true
      · refine ⟨(s, rest), by simp [chooseSepGo, hs, ho], Or.inr ⟨hs, hrest, ?_⟩⟩
        simp
      · obtain ⟨r, hr, hspec⟩ := ih hrest
        refine ⟨r, by simp [chooseSepGo, hs, ho, hr], ?_⟩
        rcases hspec with h | ⟨ha, hb, hc⟩
        · exact Or.inl h
        · refine Or.inr ⟨ha, hb, ?_⟩
          simp only [List.length_cons]
          omega

theorem chooseSep_spec (seps : List Str) (text : Str) (h : [] ∈ seps) :
    chooseSep seps text = ([], []) ∨
      ((chooseSep seps text).1 ≠ [] ∧ [] ∈ (chooseSep seps text).2 ∧
        (chooseSep seps text).2.length < seps.length) := by
  obtain ⟨r, hr, hspec⟩ := chooseSepGo_spec text seps h
  unfold chooseSep
  rw [hr]
  simpa using hspec

theorem processSplitsF_bound (overlap csize : Nat) (recf : Option (Str → List Str))
    (hrec : ∀ f, recf = some f → ∀ s c, c ∈ f s → c.length ≤ csize) :
    ∀ (splits goods : List Str),
      (recf = none → ∀ s ∈ splits, s.length < csize) →
      (∀ g ∈ goods, g.length < csize) →
      ∀ c ∈ processSplitsF overlap csize recf splits goods, c.length ≤ csize := by
  intro splits
  induction splits with
  | nil =>
    intro goods _ hg c hc
    unfold processSplitsF at hc
    by_cases h : goods = []
    · rw [if_pos h] at hc
      exact absurd hc (List.not_mem_nil c)
    · rw [if_neg h] at hc
      exact mergeSplits_bound overlap csize goods hg c hc
  | cons s rest ih =>
    intro goods hbad hg c hc
    unfold processSplitsF at hc
    by_cases hlen : s.length < csize
    · rw [if_pos hlen] at hc
      refine ih (goods ++ [s]) (fun hn s' hs' => hbad hn s' (List.mem_cons_of_mem s hs')) ?_ c hc
      intro g hgmem
      rcases List.mem_append.mp hgmem with h | h
      · exact hg g h
      · have : g = s := by simpa using h
        subst this
        exact hlen
    · rw [if_neg hlen] at hc
      rcases List.mem_append.mp hc with hfl | hrest2
      · rcases List.mem_append.mp hfl with hflush | hhandled
        · by_cases h : goods = []
          · rw [if_pos h] at hflush
            exact absurd hflush (List.not_mem_nil c)
          · rw [if_neg h] at hflush
            exact mergeSplits_bound overlap csize goods hg c hflush
        · rcases hrecf : recf with _ | f
          · exfalso
            rw [hrecf] at hhandled
            simp only [] at hhandled
            have : c = s := by simpa using hhandled
            subst this
            exact hlen (hbad hrecf c (List.mem_cons_self c rest))
          · rw [hrecf] at hhandled
            simp only [] at hhandled
            exact hrec f hrecf s c hhandled
      · exact ih [] (fun hn s' hs' => hbad hn s' (List.mem_cons_of_mem s hs'))
          (fun g hgmem => absurd hgmem (List.not_mem_nil g)) c hrest2

theorem splitTextFuel_bound (overlap csize : Nat) (hcs : 1 < csize) :
    ∀ (fuel : Nat) (seps : List Str), seps.length ≤ fuel → [] ∈ seps →
      ∀ (text c : Str), c ∈ splitTextFuel overlap csize fuel seps text → c.length ≤ csize := by
  intro fuel
  induction fuel with
  | zero =>
    intro seps hlen hmem
    have : seps = [] := List.length_eq_zero.mp (Nat.le_zero.mp hlen)
    subst this
    exact absurd hmem (List.not_mem_nil _)
  | succ fuel ih =>
    intro seps hlen hmem text c hc
    unfold splitTextFuel at hc
    simp only [] at hc
    rcases chooseSep_spec seps text hmem with hnil | ⟨h1, h2, h3⟩
    · rw [hnil] at hc
      simp only [if_pos rfl] at hc
      refine processSplitsF_bound overlap csize none (by intro f hf; cases hf) _ []
        ?_ (fun g hg => absurd hg (List.not_mem_nil g)) c hc
      intro _ s hs
      rcases List.mem_map.mp hs with ⟨x, _, hx⟩
      subst hx
      simpa using hcs
    · have hne2 : (chooseSep seps text).2 ≠ [] := by
        intro h
        rw [h] at h2
        exact absurd h2 (List.not_mem_nil _)
      rw [if_neg h1, if_neg hne2] at hc
      refine processSplitsF_bound overlap csize
        (some (fun s => splitTextFuel overlap csize fuel (chooseSep seps text).2 s)) ?_ _ []
        (by intro h; cases h) (fun g hg => absurd hg (List.not_mem_nil g)) c hc
      intro f hf s c' hc'
      rw [Option.some.injEq] at hf
      subst hf
      exact ih (chooseSep seps text).2 (by omega) h2 s c' hc'

/-- C7: every chunk produced by the splitter configured in ingestion
(`chunk_size` 900, overlap 150, separators paragraph break, line break,
sentence punctuation, space, empty string, in that priority order) has length
at most `chunk_size` characters. -/
theorem split_text_chunk_length_le (text chunk : Str)
    (h : chunk ∈ split_text text) : chunk.length ≤ ragChunkSize :=
  splitTextFuel_bound ragChunkOverlap ragChunkSize (by decide)
    (ragSeparators.length + 1) ragSeparators (by omega) (by decide) text chunk h

/-- C7 witness: a concrete page text, a chunk it produces, and the bound at
that chunk. -/
theorem split_text_chunk_length_le_witness :
    ('h' :: ['i']) ∈ split_text ('h' :: ['i']) ∧ ('h' :: ['i']).length ≤ ragChunkSize :=
  ⟨by decide, split_text_chunk_length_le ('h' :: ['i']) ('h' :: ['i']) (by decide)⟩

theorem ingest_docs_eq {Vec : Type} (env : IngestEnv Vec) (index : Index Vec) :
    ingest_docs env index =
      if loadDocuments env = [] then ⟨index, .noDocuments, false, false⟩
      else if split_documents (loadDocuments env) = [] then ⟨index, .noChunks, false, false⟩
      else ⟨ingestEntries env, .stored (split_documents (loadDocuments env)).length,
        true, true⟩ := rfl

theorem ask_question_some_eq (retr : Str → List Document) (llm : LLMRequest → Str)
    (payload : Question) :
    ask_question ⟨some retr, some llm⟩ payload =
      if pyStrip payload.question = [] then ⟨.httpError 400 detailQuestionRequired, 0, []⟩
      else if appliedFilter payload.sources (retr (pyStrip payload.question)) = [] then
        ⟨.ok fallbackAnswer [], 1, []⟩
      else
        ⟨.ok (llm (askRequest (pyStrip payload.question)
              (appliedFilter payload.sources (retr (pyStrip payload.question)))))
            ((appliedFilter payload.sources (retr (pyStrip payload.question))).map
              (fun d => d.metadata)),
          1,
          [askRequest (pyStrip payload.question)
              (appliedFilter payload.sources (retr (pyStrip payload.question)))]⟩ := rfl

/-- C1: an ingestion run that reaches the store step leaves the Index holding
exactly the (Vector, Chunk) set built from the current source directory in this
run — whatever index existed before, including any previous ingestion's
entries, is replaced wholesale (full rebuild, not incremental merge). -/
theorem ingest_full_rebuild {Vec : Type} (env : IngestEnv Vec) (index : Index Vec)
    (h : (ingest_docs env index).storeCalled = true) :
    ∀ prev : Index Vec, (ingest_docs env prev).index = ingestEntries env := by
  intro prev
  rw [ingest_docs_eq] at h ⊢
  by_cases h1 : loadDocuments env = []
  · rw [if_pos h1] at h
    exact absurd h (by simp)
  · rw [if_neg h1] at h ⊢
    by_cases h2 : split_documents (loadDocuments env) = []
    · rw [if_pos h2] at h
      exact absurd h (by simp)
    · rw [if_neg h2]

/-- C1 witness: a run over one one-page PDF reaches the store step, and the
resulting index is exactly this run's entry set despite a non-empty
pre-existing index. -/
theorem ingest_full_rebuild_witness :
    (ingest_docs sampleEnv sampleIndex).storeCalled = true ∧
      (ingest_docs sampleEnv sampleIndex).index = ingestEntries sampleEnv :=
  ⟨by decide, ingest_full_rebuild sampleEnv sampleIndex (by decide) sampleIndex⟩

theorem ingest_docs_index_stable {Vec : Type} (env : IngestEnv Vec) (index : Index Vec) :
    (ingest_docs env (ingest_docs env index).index).index = (ingest_docs env index).index := by
  by_cases h1 : loadDocuments env = []
  · simp [ingest_docs_eq, h1]
  · by_cases h2 : split_documents (loadDocuments env) = []
    · simp [ingest_docs_eq, h1, h2]
    · simp [ingest_docs_eq, h1, h2]

theorem ingest_docs_outcome_const {Vec : Type} (env : IngestEnv Vec)
    (index index' : Index Vec) :
    (ingest_docs env index).outcome = (ingest_docs env index').outcome := by
  by_cases h1 : loadDocuments env = []
  · simp [ingest_docs_eq, h1]
  · by_cases h2 : split_documents (loadDocuments env) = []
    · simp [ingest_docs_eq, h1, h2]
    · simp [ingest_docs_eq, h1, h2]

/-- C2: ingesting the same fixed document set twice in a row reports the same
chunk count on both runs, leaves the index identical, and therefore leaves the
answer of `ask_question` unchanged between the runs for every question, for
every deterministic retriever-from-index and LLM stub. -/
theorem ingest_idempotent {Vec : Type} (env : IngestEnv Vec) (index : Index Vec) :
    ingestChunkCount (ingest_docs env (ingest_docs env index).index).outcome =
        ingestChunkCount (ingest_docs env index).outcome ∧
      (ingest_docs env (ingest_docs env index).index).index =
        (ingest_docs env index).index ∧
      ∀ (retrieveF : Index Vec → Str → List Document) (llm : LLMRequest → Str)
        (payload : Question),
        ask_question
            ⟨some (retrieveF (ingest_docs env (ingest_docs env index).index).index),
              some llm⟩ payload =
          ask_question ⟨some (retrieveF (ingest_docs env index).index), some llm⟩
            payload := by
  refine ⟨by rw [ingest_docs_outcome_const env (ingest_docs env index).index index],
    ingest_docs_index_stable env index, ?_⟩
  intro retrieveF llm payload
  rw [ingest_docs_index_stable env index]

/-- C5: an ingestion run that loads zero documents or produces zero chunks
returns before the embedding and store steps and leaves the pre-existing index
completely unchanged. -/
theorem ingest_abort_on_empty {Vec : Type} (env : IngestEnv Vec) (index : Index Vec)
    (h : loadDocuments env = [] ∨ split_documents (loadDocuments env) = []) :
    (ingest_docs env index).index = index ∧
      (ingest_docs env index).embedderLoaded = false ∧
      (ingest_docs env index).storeCalled = false := by
  rw [ingest_docs_eq]
  rcases h with h1 | h2
  · rw [if_pos h1]
    exact ⟨rfl, rfl, rfl⟩
  · by_cases h1 : loadDocuments env = []
    · rw [if_pos h1]
      exact ⟨rfl, rfl, rfl⟩
    · rw [if_neg h1, if_pos h2]
      exact ⟨rfl, rfl, rfl⟩

/-- C5 witness: ingesting from an empty source directory leaves a non-empty
pre-existing index untouched and reaches neither embedding nor store. -/
theorem ingest_abort_on_empty_witness :
    (loadDocuments emptyEnv = [] ∨ split_documents (loadDocuments emptyEnv) = []) ∧
      (ingest_docs emptyEnv sampleIndex).index = sampleIndex ∧
      (ingest_docs emptyEnv sampleIndex).embedderLoaded = false ∧
      (ingest_docs emptyEnv sampleIndex).storeCalled = false :=
  ⟨Or.inl (by decide), ingest_abort_on_empty emptyEnv sampleIndex (Or.inl (by decide))⟩

theorem appliedFilter_none (docs : List Document) : appliedFilter none docs = docs := rfl

theorem appliedFilter_some_nil (docs : List Document) :
    appliedFilter (some []) docs = docs := rfl

theorem appliedFilter_some (srcs : List Str) (docs : List Document) (h : srcs ≠ []) :
    appliedFilter (some srcs) docs = filterDocs srcs docs := by
  show (if srcs = [] then docs else filterDocs srcs docs) = filterDocs srcs docs
  rw [if_neg h]

theorem ask_question_empty_400 (st : AppState) (payload : Question)
    (retr : Str → List Document) (llm : LLMRequest → Str)
    (hr : st.retriever = some retr) (hg : st.groq_client = some llm)
    (hq : pyStrip payload.question = []) :
    ask_question st payload = ⟨.httpError 400 detailQuestionRequired, 0, []⟩ := by
  rcases st with ⟨ro, go⟩
  have hr' : ro = some retr := hr
  have hg' : go = some llm := hg
  subst hr'
  subst hg'
  rw [ask_question_some_eq, if_pos hq]

/-- C3: when the retrieval result, after the optional source filter, is empty,
`ask_question` answers with the fixed fallback text and an empty sources list,
and sends no request to the LLM client. -/
theorem ask_empty_retrieval_fallback (st : AppState) (payload : Question)
    (retr : Str → List Document) (llm : LLMRequest → Str)
    (hr : st.retriever = some retr) (hg : st.groq_client = some llm)
    (hq : pyStrip payload.question ≠ [])
    (hempty : appliedFilter payload.sources (retr (pyStrip payload.question)) = []) :
    ask_question st payload = ⟨.ok fallbackAnswer [], 1, []⟩ := by
  rcases st with ⟨ro, go⟩
  have hr' : ro = some retr := hr
  have hg' : go = some llm := hg
  subst hr'
  subst hg'
  rw [ask_question_some_eq, if_neg hq, if_pos hempty]

/-- C3 witness: a question against an empty retrieval gets the fallback
answer, empty sources, and zero LLM requests. -/
theorem ask_empty_retrieval_fallback_witness :
    pyStrip payloadHi.question ≠ [] ∧
      appliedFilter payloadHi.sources (retrNone (pyStrip payloadHi.question)) = [] ∧
      ask_question stEmptyRetr payloadHi = ⟨.ok fallbackAnswer [], 1, []⟩ :=
  ⟨by decide, by decide,
    ask_empty_retrieval_fallback stEmptyRetr payloadHi retrNone llmStub rfl rfl
      (by decide) (by decide)⟩

/-- C4: source filtering is a strict post-retrieval subsequence selection —
the kept chunks are exactly the retrieved ones whose source name is in the
allowed set, in their original relative order; no filter is applied when
`sources` is absent or empty; and the answer is synthesized from exactly the
kept chunks. -/
theorem ask_source_filter_subsequence (st : AppState) (payload : Question)
    (retr : Str → List Document) (llm : LLMRequest → Str)
    (hr : st.retriever = some retr) (hg : st.groq_client = some llm)
    (hq : pyStrip payload.question ≠ []) :
    List.Sublist (appliedFilter payload.sources (retr (pyStrip payload.question)))
        (retr (pyStrip payload.question)) ∧
      (∀ srcs, payload.sources = some srcs → srcs ≠ [] →
        appliedFilter payload.sources (retr (pyStrip payload.question)) =
          (retr (pyStrip payload.question)).filter
            (fun d => decide (sourceName d ∈ srcs))) ∧
      ((payload.sources = none ∨ payload.sources = some ([] : List Str)) →
        appliedFilter payload.sources (retr (pyStrip payload.question)) =
          retr (pyStrip payload.question)) ∧
      (appliedFilter payload.sources (retr (pyStrip payload.question)) ≠ [] →
        (ask_question st payload).response =
          .ok (llm (askRequest (pyStrip payload.question)
                (appliedFilter payload.sources (retr (pyStrip payload.question)))))
            ((appliedFilter payload.sources (retr (pyStrip payload.question))).map
              (fun d => d.metadata))) := by
  refine ⟨?_, ?_, ?_, ?_⟩
  · rcases hps : payload.sources with _ | srcs
    · rw [appliedFilter_none]
    · by_cases h : srcs = []
      · subst h
        rw [appliedFilter_some_nil]
      · rw [appliedFilter_some srcs _ h]
        exact List.filter_sublist _
  · intro srcs hs hne
    rw [hs, appliedFilter_some srcs _ hne]
    rfl
  · intro h
    rcases h with h | h
    · rw [h, appliedFilter_none]
    · rw [h, appliedFilter_some_nil]
  · intro hne
    rcases st with ⟨ro, go⟩
    have hr' : ro = some retr := hr
    have hg' : go = some llm := hg
    subst hr'
    subst hg'
    rw [ask_question_some_eq, if_neg hq, if_neg hne]

/-- C4 witness: five retrieved chunks with "a.pdf" ranked 1st and 4th,
allowed set {"a.pdf"}: the kept list is a subsequence of the retrieval result
and is exactly those two chunks in that relative order. -/
theorem ask_source_filter_subsequence_witness :
    List.Sublist (appliedFilter payloadFiltered.sources
        (retrFive (pyStrip payloadFiltered.question)))
      (retrFive (pyStrip payloadFiltered.question)) ∧
      appliedFilter payloadFiltered.sources
          (retrFive (pyStrip payloadFiltered.question)) =
        [docA1, docA4] :=
  ⟨(ask_source_filter_subsequence stFull payloadFiltered retrFive llmStub rfl rfl
      (by decide)).1, by decide⟩

/-- C6: an uninitialized retriever or LLM handle makes `ask_question` fail 503
before anything else; with both handles present, an empty question fails 400
before any collaborator call. -/
theorem ask_unavailable_or_empty_validation (st : AppState) (payload : Question) :
    ((st.retriever = none ∨ st.groq_client = none) →
        ask_question st payload = ⟨.httpError 503 detailNotInitialized, 0, []⟩) ∧
      (∀ (retr : Str → List Document) (llm : LLMRequest → Str),
        st.retriever = some retr → st.groq_client = some llm →
        pyStrip payload.question = [] →
        ask_question st payload = ⟨.httpError 400 detailQuestionRequired, 0, []⟩) := by
  constructor
  · intro h
    rcases st with ⟨ro, go⟩
    rcases h with h | h
    · have h' : ro = none := h
      subst h'
      rfl
    · have h' : go = none := h
      subst h'
      cases ro with
      | none => rfl
      | some r => rfl
  · intro retr llm hr hg hq
    exact ask_question_empty_400 st payload retr llm hr hg hq

/-- C6 witness: the 503 outcome at an uninitialized state and the 400 outcome
at an empty question, both with zero collaborator calls. -/
theorem ask_unavailable_or_empty_validation_witness :
    ask_question stNone payloadHi = ⟨.httpError 503 detailNotInitialized, 0, []⟩ ∧
      ask_question stFull payloadEmptyQ = ⟨.httpError 400 detailQuestionRequired, 0, []⟩ :=
  ⟨(ask_unavailable_or_empty_validation stNone payloadHi).1 (Or.inl rfl),
    (ask_unavailable_or_empty_validation stFull payloadEmptyQ).2 retrFive llmStub rfl rfl
      (by decide)⟩

theorem pyStrip_eq_nil_of_all_space {s : Str} (h : ∀ c ∈ s, pySpace c = true) :
    pyStrip s = [] := by
  unfold pyStrip
  have h1 : s.dropWhile pySpace = [] := List.dropWhile_eq_nil_iff.mpr h
  rw [h1]
  rfl

/-- C9: a question consisting only of whitespace is treated exactly like an
empty question — the same 400 client error, before any retrieval or LLM
call. -/
theorem ask_whitespace_rejected_like_empty (st : AppState) (payload : Question)
    (retr : Str → List Document) (llm : LLMRequest → Str)
    (hr : st.retriever = some retr) (hg : st.groq_client = some llm)
    (hws : ∀ c ∈ payload.question, pySpace c = true) :
    ask_question st payload = ⟨.httpError 400 detailQuestionRequired, 0, []⟩ ∧
      ask_question st payload = ask_question st ⟨[], payload.sources⟩ := by
  have hq : pyStrip payload.question = [] := pyStrip_eq_nil_of_all_space hws
  have h1 := ask_question_empty_400 st payload retr llm hr hg hq
  have h2 := ask_question_empty_400 st ⟨[], payload.sources⟩ retr llm hr hg rfl
  exact ⟨h1, h1.trans h2.symm⟩

/-- C9 witness: three spaces are rejected with the 400 error and behave
exactly like the empty question. -/
theorem ask_whitespace_rejected_like_empty_witness :
    ask_question stFull payloadSpaces = ⟨.httpError 400 detailQuestionRequired, 0, []⟩ ∧
      ask_question stFull payloadSpaces = ask_question stFull ⟨[], payloadSpaces.sources⟩ :=
  ask_whitespace_rejected_like_empty stFull payloadSpaces retrFive llmStub rfl rfl
    (by decide)

/-- C8 counterexample: at a concrete question that reaches synthesis, the
single completion request `ask_question` issues carries no sampling
temperature at all (the keyword is never passed, so the provider default
applies) — refuting that the request asks for a low or zero temperature. -/
theorem ask_request_temperature_unspecified :
    ((ask_question stFull payloadHi).llmRequests.map (fun r => r.temperature)) =
      [(none : Option Int)] := by decide

/-- C8 amended: every question reaching synthesis issues exactly one
completion request, non-streaming (no streaming flag requested), with the
fixed model, but with no sampling temperature specified at all — the
zero-temperature configuration exists only in the unused `load_rag_pipeline`
variant. -/
theorem ask_single_llm_request (st : AppState) (payload : Question)
    (retr : Str → List Document) (llm : LLMRequest → Str)
    (hr : st.retriever = some retr) (hg : st.groq_client = some llm)
    (hq : pyStrip payload.question ≠ [])
    (hdocs : appliedFilter payload.sources (retr (pyStrip payload.question)) ≠ []) :
    (ask_question st payload).llmRequests =
        [askRequest (pyStrip payload.question)
          (appliedFilter payload.sources (retr (pyStrip payload.question)))] ∧
      (∀ r ∈ (ask_question st payload).llmRequests,
        r.stream = none ∧ r.temperature = none ∧ r.model = groqModelName) ∧
      load_rag_pipeline_llm.temperature = 0 := by
  rcases st with ⟨ro, go⟩
  have hr' : ro = some retr := hr
  have hg' : go = some llm := hg
  subst hr'
  subst hg'
  rw [ask_question_some_eq, if_neg hq, if_neg hdocs]
  refine ⟨rfl, ?_, rfl⟩
  intro r hrr
  have hreq : r = askRequest (pyStrip payload.question)
      (appliedFilter payload.sources (retr (pyStrip payload.question))) := by
    simpa using hrr
  subst hreq
  exact ⟨rfl, rfl, rfl⟩

/-- C8 amended witness: the concrete five-chunk retrieval issues exactly the
single expected request. -/
theorem ask_single_llm_request_witness :
    pyStrip payloadHi.question ≠ [] ∧
      (ask_question stFull payloadHi).llmRequests =
        [askRequest (pyStrip payloadHi.question)
          (appliedFilter payloadHi.sources (retrFive (pyStrip payloadHi.question)))] :=
  ⟨by decide,
    (ask_single_llm_request stFull payloadHi retrFive llmStub rfl rfl (by decide)
      (by decide)).1⟩

theorem sourceName_eq_basename (d : Document) :
    sourceName d = basename (metaSource d.metadata) := by
  show (if metaSource d.metadata = [] then ([] : Str)
      else basename (metaSource d.metadata)) =
    basename (metaSource d.metadata)
  by_cases h : metaSource d.metadata = []
  · rw [if_pos h, h]
    rfl
  · rw [if_neg h]

/-- C10 counterexample: with filtering active and allowed sources `[""]`, a
retrieved chunk with missing metadata is kept — it reaches the filtered
result and the answer's sources — so such chunks are not always excluded. -/
theorem missing_meta_chunk_kept :
    docNoMeta ∈ appliedFilter payloadEmptyAllowed.sources [docNoMeta] ∧
      (ask_question stNoMeta payloadEmptyAllowed).response =
        .ok ("ans".data) [(none : Option DocMeta)] := by decide

/-- C10 amended: with filtering active, membership is tested against the
basename of the chunk's metadata "source" path (not the full path); a chunk
with missing metadata or an empty source field gets the computed name "" and
is therefore excluded whenever the empty string is not itself in the allowed
set. -/
theorem source_filter_basename_and_missing (srcs : List Str) (docs : List Document)
    (hne : srcs ≠ []) (hnoempty : ([] : Str) ∉ srcs) :
    (∀ d : Document, d.metadata = none ∨ metaSource d.metadata = [] →
        d ∉ appliedFilter (some srcs) docs) ∧
      (∀ d ∈ docs, (d ∈ appliedFilter (some srcs) docs ↔
        basename (metaSource d.metadata) ∈ srcs)) := by
  rw [appliedFilter_some srcs docs hne]
  constructor
  · intro d hd hmem
    have hf := List.mem_filter.mp hmem
    have hsn : sourceName d ∈ srcs := of_decide_eq_true hf.2
    have hname : sourceName d = [] := by
      rcases hd with h | h
      · have h' : metaSource d.metadata = [] := by
          rw [h]
          rfl
        show (if metaSource d.metadata = [] then ([] : Str)
            else basename (metaSource d.metadata)) = []
        rw [if_pos h']
      · show (if metaSource d.metadata = [] then ([] : Str)
            else basename (metaSource d.metadata)) = []
        rw [if_pos h]
    rw [hname] at hsn
    exact hnoempty hsn
  · intro d hd
    constructor
    · intro hmem
      have hf := List.mem_filter.mp hmem
      have hsn : sourceName d ∈ srcs := of_decide_eq_true hf.2
      rw [sourceName_eq_basename] at hsn
      exact hsn
    · intro hb
      refine List.mem_filter.mpr ⟨hd, ?_⟩
      rw [decide_eq_true_eq, sourceName_eq_basename]
      exact hb

/-- C10 amended witness: with allowed set {"a.pdf"}, the metadata-less chunk
is excluded from the filtered result. -/
theorem source_filter_basename_and_missing_witness :
    docNoMeta ∉ appliedFilter (some [("a.pdf".data)]) [docNoMeta, docA1] :=
  (source_filter_basename_and_missing [("a.pdf".data)] [docNoMeta, docA1]
    (by decide) (by decide)).1 docNoMeta (Or.inl rfl)
